import Mathlib

/-!
Shallow embedding of the panchangam generator (`generate.py`) and proofs of
the specification claims about it.

Modelling conventions:
* UTC / local instants are rationals (hours); a local civil date is the
  integer `⌊t / 24⌋` of a local instant `t` (days since the local epoch).
* Angles are rationals (degrees).
* Ephemeris-provided quantities (apparent longitudes, sunrise/sunset
  resolution, new-moon instants, the local-noon instant produced by the
  datetime library) are parameters of the embedded functions, mirroring the
  code's calls into the skyfield / datetime adapters.
* Python dictionaries keyed by weekday 0..6 become total list lookups with a
  default that is unreachable for weekday inputs 0..6.
-/

namespace Panchangam

/-! ## Angular index helpers (`normalize_deg`, `karana_num`, `karana_name`) -/

/-- `normalize_deg`: `np.mod(x, 360.0)`, i.e. `x - 360*⌊x/360⌋ ∈ [0, 360)`. -/
def normalize_deg (x : ℚ) : ℚ := x - 360 * ⌊x / 360⌋

/-- `karana_num` as a function of the two apparent longitudes it observes:
`(normalize_deg(mlon - slon) // 6) + 1`. -/
def karana_num (slon mlon : ℚ) : ℤ := ⌊normalize_deg (mlon - slon) / 6⌋ + 1

/-- The repeating 7-name cycle used by `karana_name` for positions 2..57. -/
def KARANA_REP : List String :=
  ["Bavai", "Balavai", "Kaulavai", "Thaitilai", "Garajai", "Vanijai", "Vishti"]

/-- `karana_name`: fixed exceptions at 1/58/59/60, else `rep[(n-2) % 7]`
(Python `%` on a list index, i.e. `Int.emod`, always in `[0,7)`). -/
def karana_name (n : ℤ) : String :=
  if n = 1 then "Kimstughna"
  else if n = 58 then "Shakuni"
  else if n = 59 then "Chatushpada"
  else if n = 60 then "Nagava"
  else KARANA_REP.getD ((n - 2) % 7).toNat "Unknown"

/-! ## Transition table (`bisect_right`, `bisect_left`, `transitions_between`)

The code calls Python's `bisect` library on the `changes` list, which the
SteppedSeries invariant keeps strictly increasing; on a sorted list
`bisect_right` returns the number of elements `≤ x` and `bisect_left` the
number of elements `< x` (the insertion points). -/

def bisect_right (l : List ℚ) (x : ℚ) : ℕ := l.countP (fun c => decide (c ≤ x))

def bisect_left (l : List ℚ) (x : ℚ) : ℕ := l.countP (fun c => decide (c < x))

/-- `transitions_between(a,b,changes,values)`:
`[(changes[k], values[k]) for k in range(bisect_right(changes,a), bisect_left(changes,b))]`. -/
def transitions_between (a b : ℚ) (changes : List ℚ) (values : List ℤ) :
    List (ℚ × ℤ) :=
  let i := bisect_right changes a
  let j := bisect_left changes b
  ((changes.zip values).drop i).take (j - i)

/-! ## Time-of-day partition calculators -/

/-- Result of one auspicious/inauspicious window calculator: either the
string `"N/A"` or a formatted interval. -/
inductive KalamResult where
  | na : KalamResult
  | iv (s e : ℚ) : KalamResult
deriving DecidableEq

/-- Result of `durmuhurtham`: `"N/A"` or a joined list of intervals. -/
inductive DurmResult where
  | na : DurmResult
  | ivs (l : List (ℚ × ℚ)) : DurmResult
deriving DecidableEq

/-- Result of `gowri_good_time`: `"N/A"`, two windows, or one window. -/
inductive GowriResult where
  | na : GowriResult
  | two (m e : ℚ × ℚ) : GowriResult
  | one (w : ℚ × ℚ) : GowriResult
deriving DecidableEq

/-- `rahu_yama_gulika(d, sunrise, sunset)`; `wd` is `d.weekday()` (0 = Monday).
The three weekday→segment maps are `r_map`, `y_map`, `g_map` from the code. -/
def rahu_yama_gulika (wd : ℕ) (sunrise sunset : ℚ) :
    KalamResult × KalamResult × KalamResult :=
  let L := sunset - sunrise
  if L ≤ 0 then (.na, .na, .na)
  else
    let part := L / 8
    let seg : ℕ → KalamResult := fun idx =>
      let s := sunrise + part * (idx : ℚ)
      let e := if 7 ≤ idx then sunset else sunrise + part * ((idx : ℚ) + 1)
      .iv s e
    (seg ([1, 6, 4, 5, 3, 2, 7].getD wd 0),
     seg ([3, 2, 1, 0, 6, 5, 4].getD wd 0),
     seg ([4, 3, 2, 1, 0, 6, 5].getD wd 0))

/-- `DURMUHURTHAM_IDX` keyed by weekday 0..6. -/
def DURMUHURTHAM_IDX (wd : ℕ) : List ℕ :=
  [[8], [2, 6], [5], [9], [3, 8], [0], [13]].getD wd []

/-- `durmuhurtham(d, sunrise, sunset)`: no degenerate-interval check. -/
def durmuhurtham (wd : ℕ) (sunrise sunset : ℚ) : DurmResult :=
  let L := sunset - sunrise
  let part := L / 15
  let res := (DURMUHURTHAM_IDX wd).map
    (fun i : ℕ => (sunrise + part * (i : ℚ), sunrise + part * ((i : ℚ) + 1)))
  if res = [] then .na else .ivs res

/-- `abhijit_muhurtham(sunrise, sunset)`: always the 8th of 15 equal parts,
no degenerate-interval check. -/
def abhijit_muhurtham (sunrise sunset : ℚ) : ℚ × ℚ :=
  let L := sunset - sunrise
  let part := L / 15
  (sunrise + part * 7, sunrise + part * 8)

/-- `GOWRI_SEQ` keyed by weekday 0..6. -/
def GOWRI_SEQ (wd : ℕ) : List String :=
  [["Amirtha", "Rogam", "Laabam", "Dhanam", "Sugam", "Soram", "Visham", "Uthi"],
   ["Rogam", "Laabam", "Dhanam", "Sugam", "Soram", "Visham", "Uthi", "Amirtha"],
   ["Laabam", "Dhanam", "Sugam", "Soram", "Visham", "Uthi", "Amirtha", "Rogam"],
   ["Dhanam", "Sugam", "Soram", "Visham", "Uthi", "Amirtha", "Rogam", "Laabam"],
   ["Sugam", "Soram", "Visham", "Uthi", "Amirtha", "Rogam", "Laabam", "Dhanam"],
   ["Soram", "Visham", "Uthi", "Amirtha", "Rogam", "Laabam", "Dhanam", "Sugam"],
   ["Uthi", "Amirtha", "Rogam", "Laabam", "Dhanam", "Sugam", "Soram", "Visham"]].getD wd []

def GOOD_GOWRI : List String := ["Uthi", "Amirtha", "Laabam", "Dhanam", "Sugam"]

/-- `gowri_good_time(d, sunrise, sunset)`.  `noon` is the instant
`sunrise.replace(hour=12, minute=0, second=0)` produced by the datetime
library, passed in explicitly. -/
def gowri_good_time (wd : ℕ) (sunrise sunset noon : ℚ) : GowriResult :=
  let L := sunset - sunrise
  if L ≤ 0 then .na
  else
    let slot := L / 8
    let good_slots := ((GOWRI_SEQ wd).enum.filter (fun p => p.2 ∈ GOOD_GOWRI)).map
      (fun p : ℕ × String =>
        (sunrise + slot * (p.1 : ℚ), sunrise + slot * ((p.1 : ℚ) + 1)))
    if good_slots = [] then .na
    else
      let morning := good_slots.find? (fun ab => decide (ab.1 < noon))
      let evening := good_slots.find? (fun ab => decide (noon ≤ ab.1))
      match morning, evening with
      | some m, some e => if m ≠ e then .two m e else .one m
      | some m, none => .one m
      | none, _ => .one (good_slots.headD (0, 0))

/-! ## Epoch resolver (`mesha_sankranti_utc`, `puthandu_civil_date`,
`ugadi_civil_date`, solar-month starts)

Instants for the sankranti scan are hours since April 10, 00:00 UTC of the
year under search (`t0 = 0`); the bracket end `t1` is 8 days = 192 hours
later and the scan step is 2 hours. `lonf` is the ephemeris function
`t ↦ sun_sidereal_lon_deg(t)`. -/

/-- `wrap180`: `((x + 180) % 360) - 180`. -/
def wrap180 (x : ℚ) : ℚ := normalize_deg (x + 180) - 180

/-- The `while cur <= t1` scan of `mesha_sankranti_utc` looking for a
negative-to-positive sign change of `wrap180 ∘ lonf` between consecutive
2-hour samples.  The loop runs at most 96 iterations, so fuel 97 never
runs out. -/
def find_bracket_aux (lonf : ℚ → ℚ) : ℕ → ℚ → ℚ → Option (ℚ × ℚ)
  | 0, _, _ => none
  | fuel + 1, prev, cur =>
    if cur ≤ 192 then
      if wrap180 (lonf prev) < 0 ∧ 0 < wrap180 (lonf cur) then some (prev, cur)
      else find_bracket_aux lonf fuel cur (cur + 2)
    else none

def find_bracket (lonf : ℚ → ℚ) : Option (ℚ × ℚ) :=
  find_bracket_aux lonf 97 0 2

/-- The 50-iteration bisection of `mesha_sankranti_utc`. -/
def bisect50 (lonf : ℚ → ℚ) : ℕ → ℚ × ℚ → ℚ × ℚ
  | 0, p => p
  | n + 1, (lo, hi) =>
    let mid := lo + (hi - lo) / 2
    if 0 < wrap180 (lonf mid) then bisect50 lonf n (lo, mid)
    else bisect50 lonf n (mid, hi)

/-- `mesha_sankranti_utc`: if the scan finds no bracket it returns `t0`
(= instant `0` in this model); otherwise the bisected `lo`. -/
def mesha_sankranti (lonf : ℚ → ℚ) : ℚ :=
  match find_bracket lonf with
  | none => 0
  | some b => (bisect50 lonf 50 b).1

/-- `puthandu_civil_date`, parametrised by the localized ingress instant
(`mesha_sankranti_utc(...).astimezone(tz)`) and the
`sunrise_sunset_for_local_date` resolver:
`d = ingress.date(); if sr and ss and ingress > ss: d+1 else d`. -/
def puthandu_date_rule (riseset : ℤ → Option ℚ × Option ℚ) (ingress : ℚ) : ℤ :=
  let d : ℤ := ⌊ingress / 24⌋
  match riseset d with
  | (some _, some ss) => if ss < ingress then d + 1 else d
  | _ => d

/-- The month-start civil-date assignment inside `month_day_numbers_solar`:
`if ss and dt_local < ss: month_starts[d_civil] else month_starts[d_civil+1]`. -/
def solar_month_start (riseset : ℤ → Option ℚ × Option ℚ) (ingress : ℚ) : ℤ :=
  let d : ℤ := ⌊ingress / 24⌋
  match (riseset d).2 with
  | some ss => if ingress < ss then d else d + 1
  | none => d + 1

/-- Inner 3-day loop of `ugadi_civil_date`: for `d_off in range(3)`, if the
candidate day has a sunrise whose tithi is 1, return it. -/
def ugadi_inner (sunrise : ℤ → Option ℚ) (tithiAt : ℚ → ℤ) (check_dt : ℤ) :
    List ℕ → Option ℤ
  | [] => none
  | off :: rest =>
    let d_candidate := check_dt + off
    match sunrise d_candidate with
    | some sr =>
      if tithiAt sr = 1 then some d_candidate
      else ugadi_inner sunrise tithiAt check_dt rest
    | none => ugadi_inner sunrise tithiAt check_dt rest

/-- Outer loop of `ugadi_civil_date` over the `(time, phase)` pairs returned
by the new-moon search; `s_lon` is sidereal solar longitude at an instant
and `localDate` is conversion of an instant to the location's civil date. -/
def ugadi_scan (s_lon : ℚ → ℚ) (localDate : ℚ → ℤ) (sunrise : ℤ → Option ℚ)
    (tithiAt : ℚ → ℤ) : List (ℚ × ℕ) → Option ℤ
  | [] => none
  | (t, phase) :: rest =>
    if phase = 0 then
      if 320 ≤ s_lon t ∧ s_lon t < 360 then
        match ugadi_inner sunrise tithiAt (localDate t) [0, 1, 2] with
        | some d => some d
        | none => ugadi_scan s_lon localDate sunrise tithiAt rest
      else ugadi_scan s_lon localDate sunrise tithiAt rest
    else ugadi_scan s_lon localDate sunrise tithiAt rest

/-- `ugadi_civil_date`: the scan, with `return date(year, 4, 1)` (`april1`)
when nothing qualifies. -/
def ugadi_civil_date (moons : List (ℚ × ℕ)) (s_lon : ℚ → ℚ) (localDate : ℚ → ℤ)
    (sunrise : ℤ → Option ℚ) (tithiAt : ℚ → ℤ) (april1 : ℤ) : ℤ :=
  (ugadi_scan s_lon localDate sunrise tithiAt moons).getD april1

/-! ## Samvatsara resolver -/

/-- A civil date: Gregorian year plus day-of-year, ordered lexicographically. -/
structure CivDate where
  year : ℤ
  doy : ℕ
deriving DecidableEq

/-- Date comparison `ny <= d` used by `samvatsara_for_date` (`d >= ny`). -/
def dateLe (a b : CivDate) : Bool :=
  if a.year < b.year then true
  else if a.year = b.year then decide (a.doy ≤ b.doy)
  else false

def SAMVATSARA_NAMES : List String :=
  ["Prabhava", "Vibhava", "Shukla", "Pramodadhoota", "Prajapati", "Angirasa",
   "Srimukha", "Bhava", "Yuva", "Dhatu",
   "Eeswara", "Vehudhanya", "Pramathi", "Vikrama", "Vishu", "Chitrabhanu",
   "Subhanu", "Dharana", "Parthiba", "Viya",
   "Sarvajit", "Sarvadhari", "Virodhi", "Vikruthi", "Kara", "Nandhana",
   "Vijaya", "Jaya", "Manmatha", "Dhunmuki",
   "Hevilambi", "Vilambi", "Vikari", "Sarvari", "Plava", "Subhakrit",
   "Shobakrit", "Krodhi", "Vishvavasu", "Parabhava",
   "Plavanga", "Keelaka", "Soumya", "Sadharana", "Virodhakrit", "Paridhabi",
   "Pramadhicha", "Anandha", "Rakshasa", "Nala",
   "Pingala", "Kalayukti", "Siddharthi", "Raudhri", "Dhunmathi", "Dhundubhi",
   "Rudhirothgari", "Rakshasi", "Krodhana", "Akshaya"]

def BASE_SAMVATSARA_YEAR : ℤ := 1987

/-- The name selected for an (effective) year: `cycle[(sy - base) % 60]`. -/
def samvatsaraName (sy : ℤ) : String :=
  SAMVATSARA_NAMES.getD (((sy - BASE_SAMVATSARA_YEAR)) % 60).toNat "Unknown"

/-- `samvatsara_for_date(d, new_year_dates)`:
`sy = y if (ny and d >= ny) else y - 1; NAMES[(sy - base) % 60]`. -/
def samvatsara_for_date (d : CivDate) (new_year_dates : ℤ → Option CivDate) :
    String :=
  let y := d.year
  let sy : ℤ :=
    match new_year_dates y with
    | some ny => if dateLe ny d then y else y - 1
    | none => y - 1
  samvatsaraName sy

/-! ## Festival rule engine (`check_rich_festivals`) -/

structure RichFestival where
  name : String
  deity : String
  food : String
  lunar_month_idx : ℤ
  tithi_idx : ℤ
  paksha_idx : ℤ
  solar_month_name : String
  solar_day : ℤ
  nakshatra_idx : ℤ
  req_solar_month_for_nak : String
  is_varalakshmi : Bool

/-- `curr_paksha_idx = 0 if t_now <= 15 else 1`. -/
def paksha_idx_of (t_now : ℤ) : ℤ := if t_now ≤ 15 then 0 else 1

/-- `curr_tithi_norm = t_now if t_now <= 15 else t_now - 15`. -/
def tithi_norm_of (t_now : ℤ) : ℤ := if t_now ≤ 15 then t_now else t_now - 15

/-- The per-rule match dispatch of `check_rich_festivals` (the `if`/`elif`
chain over the four match kinds); `wd` is `d.weekday()`. -/
def rule_matched (r : RichFestival) (s_mname : String) (s_day l_midx : ℤ)
    (wd : ℕ) (t_now n_now : ℤ) : Bool :=
  let curr_paksha_idx := paksha_idx_of t_now
  let curr_tithi_norm := tithi_norm_of t_now
  if r.solar_month_name ≠ "" ∧ s_mname = r.solar_month_name ∧ s_day = r.solar_day then
    true
  else if r.lunar_month_idx ≠ -1 then
    decide (l_midx = r.lunar_month_idx) && decide (curr_paksha_idx = r.paksha_idx)
      && decide (curr_tithi_norm = r.tithi_idx)
  else if r.nakshatra_idx ≠ -1 then
    decide (n_now = r.nakshatra_idx) && decide (s_mname = r.req_solar_month_for_nak)
  else if r.is_varalakshmi then
    decide (l_midx = 4) && decide (curr_paksha_idx = 0) && decide (wd = 4)
      && decide (0 ≤ 15 - curr_tithi_norm) && decide (15 - curr_tithi_norm < 7)
  else false

/-- The `Varalakshmi Vratam` entry of `FESTIVALS_TE`. -/
def varalakshmi_rule : RichFestival :=
  RichFestival.mk "Varalakshmi Vratam" "Goddess Lakshmi"
    "Burelu, Garelu, Pulihora" (-1) (-1) (-1) "" (-1) (-1) "" true

/-! ## Calendar assembly day loop (`build_calendar`) -/

/-- The day loop of `build_calendar`: starting at `start_d`, for `n` days
(`while d < end_d`), a day produces day-level output exactly when the guard
`if sr and ss and nsr` holds, where `sr = sunr.get(d)`, `ss = suns.get(d)`,
`nsr = sunr.get(d+1)`.  Returns the list of emitted days. -/
def build_calendar_days (sunr suns : ℤ → Option ℚ) : ℤ → ℕ → List ℤ
  | _, 0 => []
  | start_d, n + 1 =>
    let rest := build_calendar_days sunr suns (start_d + 1) n
    if (sunr start_d).isSome ∧ (suns start_d).isSome ∧ (sunr (start_d + 1)).isSome
    then start_d :: rest
    else rest

/-! ## Basic lemmas -/

theorem normalize_deg_nonneg (x : ℚ) : 0 ≤ normalize_deg x := by
  have h := Int.fract_nonneg (x / 360)
  rw [Int.fract] at h
  have h2 : (0 : ℚ) ≤ 360 * (x / 360 - ⌊x / 360⌋) := by
    have h360 : (0 : ℚ) ≤ 360 := by norm_num
    exact mul_nonneg h360 h
  have h3 : (360 : ℚ) * (x / 360) = x := by ring
  rw [normalize_deg]
  nlinarith [h2]

theorem normalize_deg_lt (x : ℚ) : normalize_deg x < 360 := by
  have h := Int.fract_lt_one (x / 360)
  rw [Int.fract] at h
  have h2 : (360 : ℚ) * (x / 360 - ⌊x / 360⌋) < 360 * 1 := by
    have h360 : (0 : ℚ) < 360 := by norm_num
    exact (mul_lt_mul_left h360).mpr h
  rw [normalize_deg]
  nlinarith [h2]

/-! ## Claim theorems -/

/-- C7: for all sun/moon longitudes the karana index
`karana_num = ⌊normalize(moonLon − sunLon)/6⌋ + 1` lies in `[1,60]`, the
karana name has the fixed exception names at positions 1, 58, 59, 60, and
for any position `n ∈ [2,57]` the name is the `(n − 2) mod 7`-th entry of
the fixed 7-name repeating cycle. -/
theorem karana_num_range_and_name (slon mlon : ℚ) (n : ℤ) :
    (1 ≤ karana_num slon mlon ∧ karana_num slon mlon ≤ 60) ∧
    (karana_name 1 = "Kimstughna" ∧ karana_name 58 = "Shakuni" ∧
     karana_name 59 = "Chatushpada" ∧ karana_name 60 = "Nagava") ∧
    (2 ≤ n → n ≤ 57 →
      karana_name n = KARANA_REP.getD ((n - 2) % 7).toNat "Unknown") := by
  refine ⟨⟨?_, ?_⟩, ⟨by norm_num [karana_name], by norm_num [karana_name],
    by norm_num [karana_name], by norm_num [karana_name]⟩, ?_⟩
  · have h0 := normalize_deg_nonneg (mlon - slon)
    have hfl : (0 : ℤ) ≤ ⌊normalize_deg (mlon - slon) / 6⌋ := by
      rw [Int.le_floor]
      push_cast
      positivity
    rw [karana_num]
    omega
  · have h1 := normalize_deg_lt (mlon - slon)
    have hfl : ⌊normalize_deg (mlon - slon) / 6⌋ < 60 := by
      rw [Int.floor_lt]
      push_cast
      linarith
    rw [karana_num]
    omega
  · intro h2 h57
    rw [karana_name, if_neg (by omega), if_neg (by omega), if_neg (by omega),
      if_neg (by omega)]

/-- C7 witness: the theorem instantiated at `slon = 0`, `mlon = 0`, `n = 2`. -/
theorem karana_num_range_and_name_witness :
    (1 ≤ karana_num 0 0 ∧ karana_num 0 0 ≤ 60) ∧
    karana_name 2 = KARANA_REP.getD (((2 : ℤ) - 2) % 7).toNat "Unknown" := by
  have h := karana_num_range_and_name 0 0 2
  exact ⟨h.1, h.2.2 (by norm_num) (by norm_num)⟩

/-- C5: when the ingress date's sunrise and sunset both resolve, the solar
new-year civil date is the ingress local date if the ingress is on or
before that day's sunset (boundary inclusive), and the next date if the
ingress is strictly after sunset. -/
theorem puthandu_sunset_cutover (riseset : ℤ → Option ℚ × Option ℚ)
    (ingress sr ss : ℚ) (h : riseset ⌊ingress / 24⌋ = (some sr, some ss)) :
    (ingress ≤ ss → puthandu_date_rule riseset ingress = ⌊ingress / 24⌋) ∧
    (ss < ingress → puthandu_date_rule riseset ingress = ⌊ingress / 24⌋ + 1) := by
  constructor
  · intro hle
    simp only [puthandu_date_rule, h]
    rw [if_neg (not_lt.mpr hle)]
  · intro hlt
    simp only [puthandu_date_rule, h]
    rw [if_pos hlt]

/-- C5 witness: an ingress exactly at sunset (18:00 with sunset 18:00)
gets the ingress date itself (day 0). -/
theorem puthandu_sunset_cutover_witness :
    puthandu_date_rule (fun _ => (some 6, some 18)) 18 = 0 := by
  have h := (puthandu_sunset_cutover (fun _ => (some 6, some 18)) 18 6 18
    rfl).1 (by norm_num)
  rw [show ⌊(18 : ℚ) / 24⌋ = 0 by norm_num] at h
  exact h

/-- C6 counterexample: an ingress exactly at local sunset (instant 18 with
sunset 18, sunrise 6 resolvable) is assigned civil day 0 by the sankranti
new-year rule but civil day 1 by the solar month-start rule, so the two
computations do not agree on every ingress instant. -/
theorem month_start_sunset_boundary_counterexample :
    puthandu_date_rule (fun _ => (some 6, some 18)) 18 = 0 ∧
    solar_month_start (fun _ => (some 6, some 18)) 18 = 1 := by
  constructor
  · rw [puthandu_date_rule]
    rw [show ⌊(18 : ℚ) / 24⌋ = 0 by norm_num]
    norm_num
  · rw [solar_month_start]
    rw [show ⌊(18 : ℚ) / 24⌋ = 0 by norm_num]
    norm_num

/-- C6 amended: with sunrise and sunset both resolvable on the ingress
date, the solar month-start rule and the sankranti new-year rule assign the
same civil date for every ingress instant that is not exactly at sunset;
for an ingress exactly at sunset the new-year rule keeps the ingress date
while the month-start rule assigns the next date. -/
theorem solar_month_start_vs_puthandu (riseset : ℤ → Option ℚ × Option ℚ)
    (ingress sr ss : ℚ) (h : riseset ⌊ingress / 24⌋ = (some sr, some ss)) :
    (ingress ≠ ss →
      solar_month_start riseset ingress = puthandu_date_rule riseset ingress) ∧
    (ingress = ss →
      puthandu_date_rule riseset ingress = ⌊ingress / 24⌋ ∧
      solar_month_start riseset ingress = ⌊ingress / 24⌋ + 1) := by
  have hss : (riseset ⌊ingress / 24⌋).2 = some ss := by rw [h]
  constructor
  · intro hne
    simp only [puthandu_date_rule, h, solar_month_start, hss]
    rcases lt_or_gt_of_ne hne with hlt | hgt
    · rw [if_pos hlt, if_neg (not_lt.mpr hlt.le)]
    · rw [if_neg (not_lt.mpr hgt.le), if_pos hgt]
  · intro heq
    subst heq
    simp only [puthandu_date_rule, h, solar_month_start, hss]
    constructor
    · rw [if_neg (lt_irrefl ingress)]
    · rw [if_neg (lt_irrefl ingress)]

/-- C6 amended witness: an ingress before sunset (instant 10, sunset 18)
gets the same civil date from both rules. -/
theorem solar_month_start_vs_puthandu_witness :
    solar_month_start (fun _ => (some 6, some 18)) 10 =
      puthandu_date_rule (fun _ => (some 6, some 18)) 10 :=
  (solar_month_start_vs_puthandu (fun _ => (some 6, some 18)) 10 6 18
    rfl).1 (by norm_num)

/-- C9: the Varalakshmi Vratam composite rule matches exactly when the
day's lunar month index is 4 (Sravana), the paksha index is 0 (waxing), the
weekday is Friday (4), and `15 - tithi_norm` (days remaining until the next
full moon) lies in `[0,7)`. -/
theorem varalakshmi_match_iff (s_mname : String) (s_day l_midx : ℤ)
    (wd : ℕ) (t_now n_now : ℤ) :
    rule_matched varalakshmi_rule s_mname s_day l_midx wd t_now n_now = true ↔
      (l_midx = 4 ∧ paksha_idx_of t_now = 0 ∧ wd = 4 ∧
       0 ≤ 15 - tithi_norm_of t_now ∧ 15 - tithi_norm_of t_now < 7) := by
  simp [rule_matched, varalakshmi_rule, and_assoc]

/-- If no sampled 2-hour pair in the April bracket shows a
negative-to-positive sign change of the wrapped longitude, the bracket scan
returns `none`, whatever its remaining fuel. -/
theorem find_bracket_aux_eq_none (lonf : ℚ → ℚ)
    (h : ∀ j : ℕ, j < 96 →
      ¬(wrap180 (lonf (2 * j)) < 0 ∧ 0 < wrap180 (lonf (2 * j + 2)))) :
    ∀ (fuel k : ℕ), find_bracket_aux lonf fuel (2 * k) (2 * k + 2) = none := by
  intro fuel
  induction fuel with
  | zero => intro k; rfl
  | succ n ih =>
    intro k
    rw [find_bracket_aux]
    by_cases hcur : (2 * (k : ℚ) + 2) ≤ 192
    · rw [if_pos hcur]
      have hk : k < 96 := by
        have : (k : ℚ) ≤ 95 := by linarith
        exact_mod_cast Nat.lt_succ_of_le (by exact_mod_cast this)
      rw [if_neg (h k hk)]
      have e1 : (2 * (k : ℚ) + 2) = 2 * ((k + 1 : ℕ) : ℚ) := by push_cast; ring
      rw [e1]
      exact ih (k + 1)
    · rw [if_neg hcur]

/-- C1 counterexample: with a constantly positive wrapped sidereal solar
longitude the scan observes no negative-to-positive sign change
(`find_bracket` is `none`), yet `mesha_sankranti` does not fail: it
silently returns the bracket-start default instant `t0` (modelled as `0`),
contradicting the claim that the search must fail with `EpochNotFound`. -/
theorem mesha_sankranti_silent_default_counterexample :
    find_bracket (fun _ => 10) = none ∧ mesha_sankranti (fun _ => 10) = 0 := by
  have hw : wrap180 (10 : ℚ) = 10 := by
    rw [wrap180, normalize_deg]
    rw [show ⌊((10 : ℚ) + 180) / 360⌋ = 0 by norm_num]
    ring
  have hnone : find_bracket (fun _ => 10) = none := by
    have h := find_bracket_aux_eq_none (fun _ => 10)
      (by intro j _; rw [hw]; norm_num) 97 0
    rw [find_bracket]
    simpa using h
  refine ⟨hnone, ?_⟩
  rw [mesha_sankranti, hnone]

/-- C1 amended: whenever the scan observes no negative-to-positive sign
change of the wrapped sidereal solar longitude at any of its 2-hour sample
pairs in the fixed April bracket, `mesha_sankranti` silently returns the
bracket start `t0` (instant `0` of the bracket) as a default instant; no
failure is raised. -/
theorem mesha_sankranti_default_on_no_sign_change (lonf : ℚ → ℚ)
    (h : ∀ j : ℕ, j < 96 →
      ¬(wrap180 (lonf (2 * j)) < 0 ∧ 0 < wrap180 (lonf (2 * j + 2)))) :
    mesha_sankranti lonf = 0 := by
  have hnone : find_bracket lonf = none := by
    have haux := find_bracket_aux_eq_none lonf h 97 0
    rw [find_bracket]
    simpa using haux
  rw [mesha_sankranti, hnone]

/-- C1 amended witness: the amended theorem applied to the constant
longitude `10`. -/
theorem mesha_sankranti_default_witness : mesha_sankranti (fun _ => 10) = 0 := by
  have hw : wrap180 (10 : ℚ) = 10 := by
    rw [wrap180, normalize_deg]
    rw [show ⌊((10 : ℚ) + 180) / 360⌋ = 0 by norm_num]
    ring
  exact mesha_sankranti_default_on_no_sign_change (fun _ => 10)
    (by intro j _; rw [hw]; norm_num)

/-- If every candidate day in the 3-day forward scan lacks a sunrise whose
tithi is 1, the inner ugadi loop finds nothing. -/
theorem ugadi_inner_eq_none (sunrise : ℤ → Option ℚ) (tithiAt : ℚ → ℤ)
    (check_dt : ℤ) (offs : List ℕ)
    (h : ∀ off ∈ offs, ∀ sr, sunrise (check_dt + off) = some sr →
      tithiAt sr ≠ 1) :
    ugadi_inner sunrise tithiAt check_dt offs = none := by
  induction offs with
  | nil => rfl
  | cons off rest ih =>
    cases hsr : sunrise (check_dt + off) with
    | none =>
      simp only [ugadi_inner, hsr]
      exact ih (fun o ho => h o (List.mem_cons_of_mem _ ho))
    | some sr =>
      simp only [ugadi_inner, hsr]
      rw [if_neg (h off (List.mem_cons_self _ _) sr hsr)]
      exact ih (fun o ho => h o (List.mem_cons_of_mem _ ho))

/-- If no new-moon instant in the window qualifies (phase 0, sidereal solar
longitude in `[320,360)`, and a tithi-1 sunrise within the following 3
civil days), the ugadi scan returns `none`. -/
theorem ugadi_scan_eq_none (s_lon : ℚ → ℚ) (localDate : ℚ → ℤ)
    (sunrise : ℤ → Option ℚ) (tithiAt : ℚ → ℤ) (moons : List (ℚ × ℕ))
    (h : ∀ t phase, (t, phase) ∈ moons → phase = 0 →
      320 ≤ s_lon t → s_lon t < 360 →
      ∀ off ∈ ([0, 1, 2] : List ℕ), ∀ sr,
        sunrise (localDate t + (off : ℤ)) = some sr → tithiAt sr ≠ 1) :
    ugadi_scan s_lon localDate sunrise tithiAt moons = none := by
  induction moons with
  | nil => rfl
  | cons m rest ih =>
    obtain ⟨t, phase⟩ := m
    have hrest : ugadi_scan s_lon localDate sunrise tithiAt rest = none :=
      ih (fun t' p' hm => h t' p' (List.mem_cons_of_mem _ hm))
    rw [ugadi_scan]
    by_cases hp : phase = 0
    · rw [if_pos hp]
      by_cases hrange : 320 ≤ s_lon t ∧ s_lon t < 360
      · rw [if_pos hrange]
        rw [ugadi_inner_eq_none sunrise tithiAt (localDate t) [0, 1, 2]
          (h t phase (List.mem_cons_self _ _) hp hrange.1 hrange.2)]
        exact hrest
      · rw [if_neg hrange]; exact hrest
    · rw [if_neg hp]; exact hrest

/-- C2 counterexample: a window with one new moon of phase 0 whose sidereal
solar longitude 330 lies in `[320,360)` but where no civil day has a
resolvable sunrise at all — no qualifying instant exists, yet
`ugadi_civil_date` does not fail: it silently falls back to the default
civil date `date(year, 4, 1)` (here the day number `42`), contradicting the
claim that this must be a hard failure. -/
theorem ugadi_silent_fallback_counterexample :
    ugadi_civil_date [(0, 0)] (fun _ => 330) (fun _ => 0) (fun _ => none)
      (fun _ => 0) 42 = 42 := by
  rw [ugadi_civil_date]
  rw [ugadi_scan_eq_none _ _ _ _ _ ?_]
  · rfl
  · intro t phase _ _ _ _ _ _ sr hsr
    simp at hsr

/-- C2 amended: when no new-moon instant in the window has phase 0,
sidereal solar longitude in `[320,360)`, and a sunrise carrying tithi 1
within the following 3 civil days, `ugadi_civil_date` silently returns the
default civil date `date(year, 4, 1)` (the `april1` argument); no failure
is raised. -/
theorem ugadi_fallback_on_no_candidate (moons : List (ℚ × ℕ))
    (s_lon : ℚ → ℚ) (localDate : ℚ → ℤ) (sunrise : ℤ → Option ℚ)
    (tithiAt : ℚ → ℤ) (april1 : ℤ)
    (h : ∀ t phase, (t, phase) ∈ moons → phase = 0 →
      320 ≤ s_lon t → s_lon t < 360 →
      ∀ off ∈ ([0, 1, 2] : List ℕ), ∀ sr,
        sunrise (localDate t + (off : ℤ)) = some sr → tithiAt sr ≠ 1) :
    ugadi_civil_date moons s_lon localDate sunrise tithiAt april1 = april1 := by
  rw [ugadi_civil_date, ugadi_scan_eq_none s_lon localDate sunrise tithiAt moons h]
  rfl

/-- C2 amended witness: the amended theorem applied to a concrete window
with a single phase-0 new moon at longitude 330 and no resolvable
sunrises. -/
theorem ugadi_fallback_witness :
    ugadi_civil_date [(0, 0)] (fun _ => 330) (fun _ => 0) (fun _ => none)
      (fun _ => 0) 7 = 7 :=
  ugadi_fallback_on_no_candidate [(0, 0)] (fun _ => 330) (fun _ => 0)
    (fun _ => none) (fun _ => 0) 7
    (by intro t phase _ _ _ _ _ _ sr hsr; simp at hsr)

/-- C4 counterexample: on a degenerate day with sunrise = sunset = 0
(daylight length `L = 0 ≤ 0`) and weekday Monday, `durmuhurtham` does not
report "unavailable": it computes a (degenerate) window `[(0, 0)]` from the
interval, contradicting the claim that every partition calculator reports
unavailable when `L ≤ 0`. -/
theorem durmuhurtham_degenerate_counterexample :
    (0 : ℚ) - 0 ≤ 0 ∧ durmuhurtham 0 0 0 = .ivs [(0, 0)] := by
  refine ⟨by norm_num, ?_⟩
  rw [durmuhurtham, DURMUHURTHAM_IDX]
  norm_num

/-- C4 amended: for a degenerate daylight interval (`L = sunset − sunrise ≤
0`), `rahu_yama_gulika` and `gowri_good_time` report "unavailable" (`na`),
but `durmuhurtham` (on any weekday with a nonempty segment table) and
`abhijit_muhurtham` perform no such check and compute windows from the
degenerate interval. -/
theorem degenerate_daylight_partitions (wd : ℕ) (sunrise sunset noon : ℚ)
    (hL : sunset - sunrise ≤ 0) :
    rahu_yama_gulika wd sunrise sunset = (.na, .na, .na) ∧
    gowri_good_time wd sunrise sunset noon = .na ∧
    (DURMUHURTHAM_IDX wd ≠ [] → durmuhurtham wd sunrise sunset ≠ .na) ∧
    abhijit_muhurtham sunrise sunset =
      (sunrise + (sunset - sunrise) / 15 * 7,
       sunrise + (sunset - sunrise) / 15 * 8) := by
  refine ⟨?_, ?_, ?_, rfl⟩
  · rw [rahu_yama_gulika]
    rw [if_pos hL]
  · rw [gowri_good_time]
    rw [if_pos hL]
  · intro hne
    rw [durmuhurtham]
    rw [if_neg (fun hmapeq => hne (List.map_eq_nil_iff.mp hmapeq))]
    intro hcontra
    exact DurmResult.noConfusion hcontra

/-- C4 amended witness: the amended theorem at weekday 0 (Monday) with
sunrise = sunset = 5 and noon 12. -/
theorem degenerate_daylight_partitions_witness :
    rahu_yama_gulika 0 5 5 = (.na, .na, .na) ∧
    gowri_good_time 0 5 5 12 = .na ∧
    durmuhurtham 0 5 5 ≠ .na := by
  have h := degenerate_daylight_partitions 0 5 5 12 (by norm_num)
  exact ⟨h.1, h.2.1, h.2.2.1 (by rw [DURMUHURTHAM_IDX]; norm_num)⟩

/-- The 60 samvatsara names are pairwise distinct. -/
theorem samvatsara_names_nodup : SAMVATSARA_NAMES.Nodup := by decide

theorem samvatsara_names_length : SAMVATSARA_NAMES.length = 60 := rfl

/-- C8: with the per-year new-year epoch map populated at the date's year,
`samvatsara_for_date` equals `cycle[(year − baseYear) mod 60]` where the
effective year is the date's Gregorian year if the date is on or after that
year's epoch and the previous year otherwise; moreover the name function is
injective modulo 60 — over any 60 consecutive effective years all 60 names
appear exactly once, and the cycle then repeats identically. -/
theorem samvatsara_formula_and_cycle (m : ℤ → Option CivDate) (d : CivDate)
    (ny : CivDate) (h : m d.year = some ny) :
    samvatsara_for_date d m =
      samvatsaraName (if dateLe ny d then d.year else d.year - 1) ∧
    (∀ j k : ℤ, samvatsaraName j = samvatsaraName k ↔ j % 60 = k % 60) := by
  constructor
  · simp only [samvatsara_for_date, h]
  · intro j k
    have hj0 : 0 ≤ (j - BASE_SAMVATSARA_YEAR) % 60 :=
      Int.emod_nonneg _ (by norm_num)
    have hj1 : (j - BASE_SAMVATSARA_YEAR) % 60 < 60 :=
      Int.emod_lt_of_pos _ (by norm_num)
    have hk0 : 0 ≤ (k - BASE_SAMVATSARA_YEAR) % 60 :=
      Int.emod_nonneg _ (by norm_num)
    have hk1 : (k - BASE_SAMVATSARA_YEAR) % 60 < 60 :=
      Int.emod_lt_of_pos _ (by norm_num)
    have hjn : ((j - BASE_SAMVATSARA_YEAR) % 60).toNat <
        SAMVATSARA_NAMES.length := by
      rw [samvatsara_names_length]; omega
    have hkn : ((k - BASE_SAMVATSARA_YEAR) % 60).toNat <
        SAMVATSARA_NAMES.length := by
      rw [samvatsara_names_length]; omega
    constructor
    · intro heq
      rw [samvatsaraName, samvatsaraName,
        List.getD_eq_getElem SAMVATSARA_NAMES "Unknown" hjn,
        List.getD_eq_getElem SAMVATSARA_NAMES "Unknown" hkn] at heq
      have hval : ((j - BASE_SAMVATSARA_YEAR) % 60).toNat =
          ((k - BASE_SAMVATSARA_YEAR) % 60).toNat :=
        (samvatsara_names_nodup.getElem_inj_iff).mp heq
      rw [BASE_SAMVATSARA_YEAR] at hval
      omega
    · intro heq
      have hmods : (j - BASE_SAMVATSARA_YEAR) % 60 =
          (k - BASE_SAMVATSARA_YEAR) % 60 := by
        rw [BASE_SAMVATSARA_YEAR]; omega
      rw [samvatsaraName, samvatsaraName, hmods]

/-- C8 witness: a populated map sending each year to day 100 of that year;
for the date (2025, day 200), which is on or after its year's epoch, the
resolved name is the one of effective year 2025. -/
theorem samvatsara_formula_and_cycle_witness :
    samvatsara_for_date (CivDate.mk 2025 200) (fun y => some (CivDate.mk y 100)) =
      samvatsaraName 2025 ∧
    (samvatsaraName 2025 = samvatsaraName 2085 ↔ (2025 : ℤ) % 60 = 2085 % 60) := by
  have h := samvatsara_formula_and_cycle (fun y => some (CivDate.mk y 100))
    (CivDate.mk 2025 200) (CivDate.mk 2025 100) rfl
  constructor
  · rw [h.1, if_pos (by decide)]
  · exact h.2 2025 2085

/-- C10: a civil day in the generation horizon produces day-level output in
`build_calendar` exactly when its own sunrise, its own sunset and the next
day's sunrise are all resolvable; in particular a day whose own sunrise and
sunset exist but whose next-day sunrise is missing is silently skipped. -/
theorem build_calendar_day_emitted_iff (sunr suns : ℤ → Option ℚ)
    (start_d : ℤ) (n : ℕ) (d : ℤ) :
    d ∈ build_calendar_days sunr suns start_d n ↔
      (start_d ≤ d ∧ d < start_d + n ∧ (sunr d).isSome = true ∧
       (suns d).isSome = true ∧ (sunr (d + 1)).isSome = true) := by
  induction n generalizing start_d with
  | zero =>
    simp only [build_calendar_days, List.not_mem_nil, false_iff]
    rintro ⟨h1, h2, -⟩
    push_cast at h2
    omega
  | succ n ih =>
    rw [build_calendar_days]
    by_cases hg : (sunr start_d).isSome = true ∧ (suns start_d).isSome = true ∧
        (sunr (start_d + 1)).isSome = true
    · rw [if_pos hg, List.mem_cons, ih]
      constructor
      · rintro (rfl | ⟨h1, h2, h3⟩)
        · exact ⟨le_refl _, by push_cast; omega, hg.1, hg.2.1, hg.2.2⟩
        · refine ⟨by omega, ?_, h3⟩
          push_cast at h2 ⊢
          omega
      · rintro ⟨h1, h2, h3⟩
        by_cases hd : d = start_d
        · exact Or.inl hd
        · refine Or.inr ⟨by omega, ?_, h3⟩
          push_cast at h2 ⊢
          omega
    · rw [if_neg hg, ih]
      constructor
      · rintro ⟨h1, h2, h3⟩
        refine ⟨by omega, ?_, h3⟩
        push_cast at h2 ⊢
        omega
      · rintro ⟨h1, h2, h3⟩
        have hd : d ≠ start_d := by
          rintro rfl
          exact hg h3
        refine ⟨by omega, ?_, h3⟩
        push_cast at h2 ⊢
        omega

/-- On a list all of whose elements are greater than `a`, no element is
`≤ a`. -/
theorem countP_le_eq_zero (a : ℚ) (l : List ℚ) (h : ∀ x ∈ l, a < x) :
    l.countP (fun c => decide (c ≤ a)) = 0 :=
  List.countP_eq_zero.mpr (fun x hx => by simpa using not_le.mpr (h x hx))

/-- On a list all of whose elements are `≥ b`, no element is `< b`. -/
theorem countP_lt_eq_zero (b : ℚ) (l : List ℚ) (h : ∀ x ∈ l, b ≤ x) :
    l.countP (fun c => decide (c < b)) = 0 :=
  List.countP_eq_zero.mpr (fun x hx => by simpa using not_lt.mpr (h x hx))

/-- C3 counterexample: for the strictly increasing series with a single
change at instant 0 and value 5, querying `transitions_between 0 1` leaves
out the entry whose change instant equals the left endpoint `a = 0`, even
though `0 ≤ 0 < 1`; so the returned set is not `a ≤ changeInstant < b`. -/
theorem transitions_between_left_endpoint_counterexample :
    List.Pairwise (· < ·) [(0 : ℚ)] ∧ (0 : ℚ) ≤ 0 ∧ (0 : ℚ) < 1 ∧
    transitions_between 0 1 [0] [5] = [] := by
  refine ⟨by simp, le_refl 0, by norm_num, ?_⟩
  simp only [transitions_between, bisect_right, bisect_left, List.countP_cons,
    List.countP_nil]
  norm_num

/-- C3 amended: for a strictly increasing change list of the same length as
the value list, `transitions_between a b` returns exactly the entries whose
change instant `c` satisfies `a < c < b`: the interval is half-open on the
right but the left endpoint is excluded (an entry exactly at `a` is not
returned). -/
theorem transitions_between_halfopen (a b : ℚ) :
    ∀ (changes : List ℚ) (values : List ℤ),
      changes.Pairwise (· < ·) → changes.length = values.length →
      transitions_between a b changes values =
        (changes.zip values).filter
          (fun p => decide (a < p.1) && decide (p.1 < b))
  | [], _, _, _ => by
    simp [transitions_between, bisect_right, bisect_left]
  | _ :: _, [], _, hlen => by
    simp at hlen
  | c :: cs, v :: vs, hsort, hlen => by
    have hall : ∀ x ∈ cs, c < x := (List.pairwise_cons.mp hsort).1
    have htail : cs.Pairwise (· < ·) := (List.pairwise_cons.mp hsort).2
    have hlen' : cs.length = vs.length := by simpa using hlen
    have ihr := transitions_between_halfopen a b cs vs htail hlen'
    simp only [transitions_between, bisect_right, bisect_left] at ihr ⊢
    rw [List.zip_cons_cons, List.countP_cons, List.countP_cons]
    by_cases hca : c ≤ a
    · have hA : decide (c ≤ a) = true := decide_eq_true hca
      by_cases hcb : c < b
      · have hB : decide (c < b) = true := decide_eq_true hcb
        simp only [hA, hB, eq_self_iff_true, if_true]
        rw [List.drop_succ_cons, Nat.add_sub_add_right]
        rw [List.filter_cons_of_neg (by simp [not_lt.mpr hca])]
        exact ihr
      · have hble : b ≤ c := not_lt.mp hcb
        have hB : decide (c < b) = false := decide_eq_false hcb
        rw [countP_lt_eq_zero b cs
          (fun x hx => le_trans hble (le_of_lt (hall x hx)))]
        simp only [hA, hB, eq_self_iff_true, if_true, Bool.false_eq_true,
          if_false, Nat.add_zero, Nat.zero_sub, List.take_zero]
        symm
        rw [List.filter_eq_nil_iff]
        intro p hp
        rcases List.mem_cons.mp hp with rfl | hp'
        · simp [hcb]
        · have hmem := (List.of_mem_zip hp').1
          have : b ≤ p.1 := le_trans hble (le_of_lt (hall _ hmem))
          simp [not_lt.mpr this]
    · have hac : a < c := not_le.mp hca
      have hA : decide (c ≤ a) = false := decide_eq_false hca
      rw [countP_le_eq_zero a cs (fun x hx => lt_trans hac (hall x hx))]
      by_cases hcb : c < b
      · have hB : decide (c < b) = true := decide_eq_true hcb
        simp only [hA, hB, eq_self_iff_true, if_true, Bool.false_eq_true,
          if_false, Nat.add_zero, Nat.zero_add, List.drop_zero, Nat.sub_zero,
          List.take_succ_cons]
        rw [List.filter_cons_of_pos (by simp [hac, hcb])]
        rw [countP_le_eq_zero a cs (fun x hx => lt_trans hac (hall x hx))] at ihr
        simp only [Nat.sub_zero, List.drop_zero] at ihr
        rw [ihr]
      · have hble : b ≤ c := not_lt.mp hcb
        have hB : decide (c < b) = false := decide_eq_false hcb
        rw [countP_lt_eq_zero b cs
          (fun x hx => le_trans hble (le_of_lt (hall x hx)))]
        simp only [hA, hB, Bool.false_eq_true, if_false, Nat.add_zero,
          Nat.zero_sub, Nat.sub_zero, List.take_zero]
        symm
        rw [List.filter_eq_nil_iff]
        intro p hp
        rcases List.mem_cons.mp hp with rfl | hp'
        · simp [hcb]
        · have hmem := (List.of_mem_zip hp').1
          have : b ≤ p.1 := le_trans hble (le_of_lt (hall _ hmem))
          simp [not_lt.mpr this]

/-- C3 amended witness: for the strictly increasing series `[1, 3, 5]` with
values `[10, 11, 12]` and query `(a, b) = (1, 5)`, the result is exactly
the filter of the zipped entries by `1 < c < 5` — concretely `[(3, 11)]`. -/
theorem transitions_between_halfopen_witness :
    List.Pairwise (· < ·) [(1 : ℚ), 3, 5] ∧
    transitions_between 1 5 [1, 3, 5] [10, 11, 12] =
      (([(1 : ℚ), 3, 5]).zip ([10, 11, 12] : List ℤ)).filter
        (fun p => decide ((1 : ℚ) < p.1) && decide (p.1 < 5)) := by
  have hp : List.Pairwise (· < ·) [(1 : ℚ), 3, 5] := by
    simp only [List.pairwise_cons, List.mem_cons, List.not_mem_nil,
      List.Pairwise.nil]
    norm_num
  exact ⟨hp, transitions_between_halfopen 1 5 [1, 3, 5] [10, 11, 12] hp rfl⟩

end Panchangam
